import Mathlib

set_option autoImplicit false

/-!
Verification of tesseract (static-CT log server) against its specification.

This file shallowly embeds the Go sources under scrutiny:
  - `config.go` (log configuration validation),
  - `storage/storage.go` (CT storage: Add, dedupeFuture, AddIssuerChain,
    cachedStoreIssuers),
  - `storage/aws/issuers.go` and
    `internal/testonly/storage/inmemory/issuers.go`
    (IssuerStorage implementations),
and proves or refutes the specified properties about those embeddings.

External collaborators (the tessera appender/awaiter library, crypto/sha256,
the S3 client, file I/O) are modelled as explicit environment parameters;
everything belonging to the repository itself is translated directly from
the Go source.
-/

/-! ## Embedding of config.go -/

/-- Public keys, as far as `New` inspects them: Go switches on the dynamic
type of `signer.Public()`. The `curve` field records which ECDSA curve the
key is on (e.g. "P-256", "P-384"); the Go type switch cannot see it. -/
inductive PublicKey where
  | ecdsa (curve : String)
  | rsa (bits : Nat)
  | ed25519
deriving DecidableEq, Repr

/-- Errors produced by config validation, one constructor per `errors.New` /
`fmt.Errorf` site in config.go. -/
inductive ConfigErr where
  | emptyOrigin
  | emptySigner
  | unsupportedKeyType
  | emptyRootsPemFile
  | failedToReadRoots
  | rejectingAll
  | limitBeforeStart
  | unknownEKU (name : String)
  | badRejectExtensions
  | invalidCertValidationConfig (e : ConfigErr)
deriving DecidableEq, Repr

/-- The message rendered for each error, following the format strings in
config.go. -/
def configErrMsg : ConfigErr → String
  | .emptyOrigin => "empty origin"
  | .emptySigner => "empty signer"
  | .unsupportedKeyType => "unsupported key type"
  | .emptyRootsPemFile => "empty rootsPemFile"
  | .failedToReadRoots => "failed to read trusted roots"
  | .rejectingAll => "rejecting all certificates"
  | .limitBeforeStart => "limit before start"
  | .unknownEKU name => "unknown extended key usage: " ++ name
  | .badRejectExtensions => "failed to parse RejectExtensions"
  | .invalidCertValidationConfig e =>
      "invalid cert validation config: " ++ configErrMsg e

/-- CertValidationConfig from config.go. `time.Time` values are modelled as
integers (Unix nanoseconds); `t1.Before(t2)` is `t1 < t2`. -/
structure CertValidationConfig where
  rootsPemFile : String
  rejectExpired : Bool
  rejectUnexpired : Bool
  extKeyUsages : String
  rejectExtensions : String
  notAfterStart : Option Int
  notAfterLimit : Option Int
deriving DecidableEq, Repr

/-- Validated per-chain options, as assembled by `newCertValidationOpts`.
Trusted roots are kept opaque (a list of parsed certificates); extended key
usages are the Go `x509.ExtKeyUsage` integer constants. -/
structure CertValidationOpts where
  trustedRoots : List String
  rejectExpired : Bool
  rejectUnexpired : Bool
  notAfterStart : Option Int
  notAfterLimit : Option Int
  extKeyUsages : List Nat
  rejectExtIds : List (List Int)
deriving DecidableEq, Repr

/-- The file system / PEM parsing side effects of
`x509util.NewPEMCertPool().AppendCertsFromPEMFile`: given the configured
path, the environment yields the parsed root certificates, or `none` when
reading or parsing fails. -/
structure ConfigEnv where
  appendCertsFromPEMFile : String → Option (List String)

/-- `stringToKeyUsage` from config.go, with the Go `x509.ExtKeyUsage`
integer values (`ExtKeyUsageAny = 0`, `ServerAuth = 1`, ...). -/
def stringToKeyUsage : List (String × Nat) :=
  [("Any", 0),
   ("ServerAuth", 1),
   ("ClientAuth", 2),
   ("CodeSigning", 3),
   ("EmailProtection", 4),
   ("IPSECEndSystem", 5),
   ("IPSECTunnel", 6),
   ("IPSECUser", 7),
   ("TimeStamping", 8),
   ("OCSPSigning", 9),
   ("MicrosoftServerGatedCrypto", 10),
   ("NetscapeServerGatedCrypto", 11)]

/-- Go `x509.ExtKeyUsageAny`. -/
def ExtKeyUsageAny : Nat := 0

/-- Go `strings.Split` with a single-character separator, over the
string's characters. (Structural recursion, so that statements about it
can be evaluated by the kernel; `String.splitOn` is an equivalent
well-founded definition.) -/
def splitChars (sep : Char) : List Char → List Char → List (List Char)
  | [], acc => [acc.reverse]
  | c :: rest, acc =>
    if c = sep then acc.reverse :: splitChars sep rest []
    else splitChars sep rest (c :: acc)

/-- Go `strings.Split(s, sep)` for a one-character separator. -/
def goSplit (s : String) (sep : Char) : List String :=
  (splitChars sep s.toList []).map String.mk

/-- The `for _, kuStr := range lExtKeyUsages` loop of
`newCertValidationOpts`: looks every name up in `stringToKeyUsage`,
accumulates the usages, resets the accumulator to nil and stops on "Any",
and fails on an unknown name. -/
def extKeyUsagesLoop : List String → List Nat → Except ConfigErr (List Nat)
  | [], acc => .ok acc
  | kuStr :: rest, acc =>
    match stringToKeyUsage.lookup kuStr with
    | some ku =>
        if ku = ExtKeyUsageAny then .ok []
        else extKeyUsagesLoop rest (acc ++ [ku])
    | none => .error (.unknownEKU kuStr)

/-- Go `strconv.Atoi` on a 64-bit platform: optional sign, decimal digits,
64-bit signed range. -/
def goAtoi (s : String) : Option Int :=
  let (neg, digits) :=
    match s.toList with
    | '-' :: rest => (true, rest)
    | '+' :: rest => (false, rest)
    | l => (false, l)
  if digits = [] then none
  else if digits.all Char.isDigit then
    let v : Nat := digits.foldl (fun a c => a * 10 + (c.toNat - 48)) 0
    if neg then
      if v ≤ 2 ^ 63 then some (-(v : Int)) else none
    else
      if v < 2 ^ 63 then some (v : Int) else none
  else none

/-- `parseOIDs` from config.go: each string is split on "." and each
component parsed with `strconv.Atoi`; any parse failure fails the whole
call. -/
def parseOIDs : List String → Option (List (List Int))
  | [] => some []
  | s :: rest =>
    let bits := goSplit s '.'
    match bits.mapM goAtoi with
    | none => none
    | some oid =>
      match parseOIDs rest with
      | none => none
      | some ret => some (oid :: ret)

/-- The second half of `newCertValidationOpts` (after the roots / expiry /
window checks): parses the comma-separated extended-key-usage and
rejected-extension lists and assembles the options value. -/
def newCertValidationOptsTail (cfg : CertValidationConfig)
    (roots : List String) : Except ConfigErr CertValidationOpts :=
  let lExtKeyUsages :=
    if cfg.extKeyUsages = "" then [] else goSplit cfg.extKeyUsages ','
  match extKeyUsagesLoop lExtKeyUsages [] with
  | .error e => .error e
  | .ok ekus =>
    let lRejectExtensions :=
      if cfg.rejectExtensions = "" then []
      else goSplit cfg.rejectExtensions ','
    match parseOIDs lRejectExtensions with
    | none => .error .badRejectExtensions
    | some oids =>
      .ok { trustedRoots := roots,
            rejectExpired := cfg.rejectExpired,
            rejectUnexpired := cfg.rejectUnexpired,
            notAfterStart := cfg.notAfterStart,
            notAfterLimit := cfg.notAfterLimit,
            extKeyUsages := ekus,
            rejectExtIds := oids }

/-- `newCertValidationOpts` from config.go: loads roots, rejects
contradictory expiry policies and inverted NotAfter windows, then parses
the comma-separated extended-key-usage and rejected-extension lists
(`newCertValidationOptsTail`). -/
def newCertValidationOpts (env : ConfigEnv) (cfg : CertValidationConfig) :
    Except ConfigErr CertValidationOpts :=
  if cfg.rootsPemFile.length = 0 then .error .emptyRootsPemFile
  else
    match env.appendCertsFromPEMFile cfg.rootsPemFile with
    | none => .error .failedToReadRoots
    | some roots =>
      if cfg.rejectExpired && cfg.rejectUnexpired then .error .rejectingAll
      else
        match cfg.notAfterStart, cfg.notAfterLimit with
        | some nas, some nal =>
          if nal < nas then .error .limitBeforeStart
          else newCertValidationOptsTail cfg roots
        | _, _ => newCertValidationOptsTail cfg roots

/-- ValidatedLogConfig from config.go. -/
structure ValidatedLogConfig where
  origin : String
  signerPub : PublicKey
  certValidationOpts : CertValidationOpts
deriving DecidableEq, Repr

/-- `New` from config.go: checks the origin, requires a signer whose public
key satisfies the `case *ecdsa.PublicKey` type switch, and validates the
chain-validation configuration. The signer is modelled by the public key it
exposes (`none` for a nil signer). -/
def New (env : ConfigEnv) (origin : String) (signer : Option PublicKey)
    (cfg : CertValidationConfig) : Except ConfigErr ValidatedLogConfig :=
  if origin = "" then .error .emptyOrigin
  else
    match signer with
    | none => .error .emptySigner
    | some pub =>
      match pub with
      | .ecdsa c =>
        match newCertValidationOpts env cfg with
        | .error e => .error (.invalidCertValidationConfig e)
        | .ok opts =>
          .ok { origin := origin, signerPub := .ecdsa c,
                certValidationOpts := opts }
      | _ => .error .unsupportedKeyType

/-- `Except.isOk`-style discriminator used throughout the statements. -/
def exceptIsOk {ε α : Type} : Except ε α → Bool
  | .ok _ => true
  | .error _ => false

/-! ## Embedding of storage/storage.go -/

/-- `maxCachedIssuerKeys` from storage/storage.go. -/
def maxCachedIssuerKeys : Nat := 2 ^ 20

/-- tessera's `layout.EntryBundleWidth` (external constant): entry bundles
hold 256 leaves. -/
def EntryBundleWidth : Nat := 256

/-- A resolved tessera index: `Index` and `IsDup` of the value an
`IndexFuture` yields. -/
structure AssignResult where
  index : Nat
  isDup : Bool
deriving DecidableEq, Repr

/-- A tessera `IndexFuture`, already identified with the value the call
`future()` returns every time it is invoked (futures are memoised). -/
def IndexFuture : Type := Except String AssignResult

/-- A CT entry (`ctonly.Entry`), reduced to the fields `CTStorage.Add`
touches: the caller-supplied timestamp and the certificate identity the
appender deduplicates on. -/
structure Entry where
  timestamp : Nat
  certificate : List Nat
deriving DecidableEq, Repr

/-- Errors of the storage paths, one constructor per return site in
`CTStorage.Add` / `CTStorage.dedupeFuture`. -/
inductive StorageErr where
  | indexFutureErr
  | pushback
  | awaitErr
  | checkpointNoSize
  | checkpointBadSize
  | bundleNotFound (i : Nat)
  | bundleFetchFailed (i : Nat)
  | timestampExtractFailed (eIdx eBIdx : Nat)
deriving DecidableEq, Repr

/-- Error class of a failed `ReadEntryBundle`: Go distinguishes
`os.ErrNotExist` from any other error. -/
inductive ReadErr where
  | notExist
  | other
deriving DecidableEq, Repr

/-- The collaborators of `CTStorage`, modelled as an explicit environment:
  - `storeData`: `tessera.NewCertificateTransparencyAppender(appender)`,
    mapping an entry to its (memoised) index future;
  - `awaitCheckpoint`: the integration side of
    `tessera.PublicationAwaiter.Await` — for an assigned index, the raw
    checkpoint bytes that first covered it, or `none` if awaiting fails;
  - `tileWidth`: tessera's `layout.PartialTileSize(0, eBIdx, ckptSize)`;
  - `readEntryBundle`: `reader.ReadEntryBundle` of the tessera LogReader;
  - `extractTimestamp`: `staticct.ExtractTimestampFromBundle` applied to a
    raw bundle and an index within the bundle. -/
structure StorageEnv where
  storeData : Entry → IndexFuture
  awaitCheckpoint : Nat → Option String
  tileWidth : Nat → Nat → Nat → Nat
  readEntryBundle : Nat → Nat → Except ReadErr (List Nat)
  extractTimestamp : List Nat → Nat → Option Nat

/-- The `CTStorage` fields the embedded operations read. -/
structure CTStorage where
  enableAwaiter : Bool
  maxDedupeFutureInFlight : Nat

/-- Modelled from the spec: `tessera.PublicationAwaiter.Await` (external
library, spec section 4.6) blocks until the published tree size covers the
future's index and then returns the future's assign result together with
the raw checkpoint bytes that first covered it. Polling and blocking are
abstracted into `env.awaitCheckpoint`. -/
def awaiterAwait (env : StorageEnv) (f : IndexFuture) :
    Except StorageErr (AssignResult × String) :=
  match f with
  | .error _ => .error .awaitErr
  | .ok r =>
    match env.awaitCheckpoint r.index with
    | none => .error .awaitErr
    | some cp => .ok (r, cp)

/-- Go `bytes.SplitN(cpRaw, "\n", 3)`: at most three pieces, the last one
keeping the remaining separators. -/
def splitN3 (s : String) : List String :=
  match goSplit s '\n' with
  | [] => []
  | [a] => [a]
  | [a, b] => [a, b]
  | a :: b :: rest =>
      [a, b, String.mk (List.intercalate ['\n'] (rest.map String.toList))]

/-- Go `strconv.ParseUint(s, 10, 64)`: non-empty, decimal digits only,
64-bit range. -/
def parseUint64 (s : String) : Option Nat :=
  if s = "" then none
  else if s.toList.all Char.isDigit then
    let v : Nat := s.toList.foldl (fun a c => a * 10 + (c.toNat - 48)) 0
    if v < 2 ^ 64 then some v else none
  else none

/-- `CTStorage.dedupeFuture` from storage/storage.go. The atomic
`dedupeFutureInFlight` counter is threaded explicitly: the function takes
its current value and returns the (index, timestamp) result — or an
error — together with the updated counter. -/
def dedupeFuture (env : StorageEnv) (cts : CTStorage) (inFlight : Nat)
    (f : IndexFuture) : Except StorageErr (Nat × Nat) × Nat :=
  if inFlight > cts.maxDedupeFutureInFlight then (.error .pushback, inFlight)
  else
    let inFlight1 := inFlight + 1
    match awaiterAwait env f with
    | .error e => (.error e, inFlight1)
    | .ok (idx, cpRaw) =>
      match (splitN3 cpRaw)[1]? with
      | none => (.error .checkpointNoSize, inFlight1)
      | some sizeLine =>
        match parseUint64 sizeLine with
        | none => (.error .checkpointBadSize, inFlight1)
        | some ckptSize =>
          let eBIdx := idx.index / EntryBundleWidth
          match env.readEntryBundle eBIdx (env.tileWidth 0 eBIdx ckptSize) with
          | .error .notExist => (.error (.bundleNotFound eBIdx), inFlight1)
          | .error .other => (.error (.bundleFetchFailed eBIdx), inFlight1)
          | .ok eBRaw =>
            let eIdx := idx.index % EntryBundleWidth
            match env.extractTimestamp eBRaw eIdx with
            | none => (.error (.timestampExtractFailed eIdx eBIdx), inFlight1)
            | some t => (.ok (idx.index, t), inFlight1)

/-- The per-tick action of `CTStorage.resetDedupeFutureInFlightJob`: on
every tick of the 1-second ticker, the in-flight counter is stored to 0. -/
def resetDedupeFutureInFlightTick (_inFlight : Nat) : Nat := 0

/-- Outcome of `CTStorage.Add`: the (index, timestamp) pair or error, the
updated in-flight counter, and a ghost flag recording whether the
`if cts.enableAwaiter` branch of `Add` itself invoked the publication
awaiter (the duplicate path returns before reaching that branch). -/
structure AddOutcome where
  result : Except StorageErr (Nat × Nat)
  inFlight : Nat
  tookAddAwaiterBranch : Bool
deriving Repr

/-- `CTStorage.Add` from storage/storage.go: resolves the index future,
routes duplicates through `dedupeFuture`, optionally awaits integration,
and otherwise returns the assigned index with the caller's timestamp. -/
def ctAdd (env : StorageEnv) (cts : CTStorage) (inFlight : Nat)
    (entry : Entry) : AddOutcome :=
  let future := env.storeData entry
  match future with
  | .error _ => ⟨.error .indexFutureErr, inFlight, false⟩
  | .ok idx =>
    if idx.isDup then
      let r := dedupeFuture env cts inFlight future
      ⟨r.1, r.2, false⟩
    else if cts.enableAwaiter then
      match awaiterAwait env future with
      | .error e => ⟨.error e, inFlight, true⟩
      | .ok (idx2, _) => ⟨.ok (idx2.index, entry.timestamp), inFlight, true⟩
    else ⟨.ok (idx.index, entry.timestamp), inFlight, false⟩

/-- Key-value pair handed to an `IssuerStorage` (storage/storage.go `KV`);
Go `[]byte` keys are compared as strings throughout the source, so the key
is modelled as a `String` and the value as its DER bytes. -/
structure KV where
  k : String
  v : List Nat
deriving DecidableEq, Repr

/-- Go `encoding/hex` digit table "0123456789abcdef". -/
def hexDigit (n : Nat) : Char :=
  if n < 10 then Char.ofNat (48 + n) else Char.ofNat (87 + n)

/-- One byte to two lowercase hex characters, as `hex.EncodeToString` does
(`hextable[b>>4]`, `hextable[b&0x0f]`). -/
def hexEncodeByte (b : Nat) : List Char :=
  [hexDigit (b % 256 / 16), hexDigit (b % 16)]

/-- Go `hex.EncodeToString` over a byte slice. -/
def hexEncodeToString (bs : List Nat) : String :=
  String.mk ((bs.map hexEncodeByte).flatten)

/-- A parsed certificate, reduced to the only field `AddIssuerChain`
reads: its raw DER bytes (`c.Raw`). -/
structure Certificate where
  raw : List Nat
deriving DecidableEq, Repr

/-- `CTStorage.AddIssuerChain` from storage/storage.go: builds one KV per
chain certificate — key the hex-encoded SHA-256 of the DER, value the
DER — and hands the batch to `storeIssuers`. `sha` models crypto/sha256's
`Sum256` (external); `storeIssuers` is the store closure. -/
def AddIssuerChain (sha : List Nat → List Nat)
    (storeIssuers : List KV → Except String Unit)
    (chain : List Certificate) : Except String Unit :=
  let kvs := chain.foldl
    (fun acc c => acc ++ [KV.mk (hexEncodeToString (sha c.raw)) c.raw]) []
  match storeIssuers kvs with
  | .error e => .error ("error storing intermediates: " ++ e)
  | .ok _ => .ok ()

/-- Membership test of the Go cache map `m map[string]struct{}`, modelled
as the list of keys inserted so far. -/
def cacheContains (m : List String) (k : String) : Bool := m.contains k

/-- Insertion into the cache map: a repeated key leaves the map (and its
size) unchanged. -/
def cacheInsert (m : List String) (k : String) : List String :=
  if cacheContains m k then m else m ++ [k]

/-- The second loop of the `cachedStoreIssuers` closure: caches the keys
just written, stopping (with success) as soon as the cache holds
`maxCachedIssuerKeys` keys. -/
def cacheInsertLoop : List String → List KV → List String
  | m, [] => m
  | m, kv :: rest =>
    if m.length ≥ maxCachedIssuerKeys then m
    else cacheInsertLoop (cacheInsert m kv.k) rest

/-- One invocation of the closure returned by `cachedStoreIssuers`
(storage/storage.go): keys found in the in-process cache are dropped from
the batch; the remainder is forwarded to the underlying `IssuerStorage`;
on success the forwarded keys are cached (up to `maxCachedIssuerKeys`).
The backing store call is the function parameter `backend`; the cache is
threaded explicitly. -/
def cachedStoreIssuersCall (backend : List KV → Except String Unit)
    (m : List String) (kv : List KV) :
    Except String Unit × List String :=
  let req := kv.filter (fun x => !(cacheContains m x.k))
  match backend req with
  | .error e =>
    (.error ("AddIssuersIfNotExist()s: error storing issuer data in the underlying IssuerStorage: " ++ e), m)
  | .ok _ => (.ok (), cacheInsertLoop m req)

/-! ## Embedding of the IssuerStorage implementations -/

/-- `IssuersStorage.AddIssuersIfNotExist` from
internal/testonly/storage/inmemory/issuers.go: the store is a map from key
to value; keys already present are skipped (`continue`) and the remaining
records are still written. It never fails. -/
def inmemoryAddIssuersIfNotExist :
    List (String × List Nat) → List KV → List (String × List Nat)
  | s, [] => s
  | s, kv :: rest =>
    if (s.lookup kv.k).isSome then inmemoryAddIssuersIfNotExist s rest
    else inmemoryAddIssuersIfNotExist (s ++ [(kv.k, kv.v)]) rest

/-- `IssuersStorage.keyToObjName` from storage/aws/issuers.go:
`path.Join(prefix, key)` (for non-empty clean components, the prefix and
key joined by "/"). -/
def keyToObjName (pfx : String) (key : String) : String :=
  if pfx = "" then key else pfx ++ "/" ++ key

/-- `IssuersStorage.AddIssuersIfNotExist` from storage/aws/issuers.go over
a model of S3: the bucket is a name-to-bytes map and `PutObject` with
`IfNoneMatch: "*"` fails with `PreconditionFailed` exactly when the object
already exists. On `PreconditionFailed` the Go code logs "continuing" but
executes `return nil`: the call ends successfully WITHOUT processing the
remaining records. The returned store is the updated bucket (the call
never surfaces an error in this S3 model). -/
def awsAddIssuersIfNotExist (pfx : String) :
    List (String × List Nat) → List KV → List (String × List Nat)
  | s3, [] => s3
  | s3, kv :: rest =>
    if (s3.lookup (keyToObjName pfx kv.k)).isSome then s3
    else awsAddIssuersIfNotExist pfx (s3 ++ [(keyToObjName pfx kv.k, kv.v)]) rest

/-! ## Concrete instances used by witnesses and counterexamples -/

/-- A config environment whose root file loads successfully. -/
def envOkRoots : ConfigEnv := ⟨fun _ => some ["fake-ca"]⟩

/-- A minimal valid chain-validation configuration. -/
def cfgBasic : CertValidationConfig :=
  { rootsPemFile := "roots.pem", rejectExpired := false,
    rejectUnexpired := false, extKeyUsages := "", rejectExtensions := "",
    notAfterStart := none, notAfterLimit := none }

/-- A configuration whose EKU list names "Any" before an unknown usage. -/
def cfgAnyUnknown : CertValidationConfig :=
  { cfgBasic with extKeyUsages := "Any,TimeStomping" }

/-- A storage environment in which every submission resolves as a
duplicate of index 300, the covering checkpoint announces size 301, and
the recovered bundle timestamp is 1111. -/
def envDup : StorageEnv :=
  { storeData := fun _ => .ok ⟨300, true⟩
    awaitCheckpoint := fun _ => some "example.com/log\n301\nc29tZWhhc2g=\n"
    tileWidth := fun _ _ _ => 45
    readEntryBundle := fun _ _ => .ok [0, 0, 0, 0, 0, 0, 4, 87]
    extractTimestamp := fun _ _ => some 1111 }

/-- A storage environment in which every submission is assigned fresh
index 7 and integration succeeds. -/
def envNondup : StorageEnv :=
  { storeData := fun _ => .ok ⟨7, false⟩
    awaitCheckpoint := fun _ => some "example.com/log\n8\nc29tZWhhc2g=\n"
    tileWidth := fun _ _ _ => 8
    readEntryBundle := fun _ _ => .ok []
    extractTimestamp := fun _ _ => none }

/-- The lowercase hexadecimal alphabet, as a character list. -/
def hexAlphabet : List Char := "0123456789abcdef".toList

/-- An issuer backend that always succeeds. -/
def backendOk : List KV → Except String Unit := fun _ => .ok ()

/-- An issuer backend that always fails. -/
def backendBoom : List KV → Except String Unit := fun _ => .error "boom"

/-- A cache already holding `maxCachedIssuerKeys` keys. -/
def fullCache : List String := List.replicate maxCachedIssuerKeys "x"

/-! ## Helper lemmas -/

theorem exceptIsOk_false_iff {ε α : Type} (x : Except ε α) :
    exceptIsOk x = false ↔ ∃ e, x = .error e := by
  cases x <;> simp [exceptIsOk]

/-- If the inner chain-validation config is rejected, `New` is rejected as
well (it either fails an earlier check or wraps the inner error). -/
theorem New_isOk_le (env : ConfigEnv) (o : String) (s : Option PublicKey)
    (cfg : CertValidationConfig)
    (h : exceptIsOk (newCertValidationOpts env cfg) = false) :
    exceptIsOk (New env o s cfg) = false := by
  unfold New
  split
  · rfl
  · rcases s with _ | pub
    · rfl
    · cases pub with
      | ecdsa c =>
        simp only []
        rcases (exceptIsOk_false_iff _).1 h with ⟨e, he⟩
        rw [he]
        rfl
      | rsa bits => rfl
      | ed25519 => rfl

/-- Under passing roots, expiry and window checks, `newCertValidationOpts`
reduces to its tail. -/
theorem newCertValidationOpts_eq_tail (env : ConfigEnv)
    (cfg : CertValidationConfig) (roots : List String)
    (hlen : cfg.rootsPemFile.length ≠ 0)
    (hroots : env.appendCertsFromPEMFile cfg.rootsPemFile = some roots)
    (hrej : (cfg.rejectExpired && cfg.rejectUnexpired) = false)
    (hwin : ∀ nas nal, cfg.notAfterStart = some nas →
      cfg.notAfterLimit = some nal → ¬ nal < nas) :
    newCertValidationOpts env cfg = newCertValidationOptsTail cfg roots := by
  unfold newCertValidationOpts
  rw [if_neg hlen]
  simp only [hroots]
  have hrej2 : ¬((cfg.rejectExpired && cfg.rejectUnexpired) = true) := by
    simp [hrej]
  rw [if_neg hrej2]
  cases hs : cfg.notAfterStart with
  | none => cases hl : cfg.notAfterLimit <;> rfl
  | some nas =>
    cases hl : cfg.notAfterLimit with
    | none => rfl
    | some nal => exact if_neg (hwin nas nal hs hl)

/-- Scanning a list whose prefix consists of known, non-"Any" usages and
then hits an unknown name fails with that name. -/
theorem extKeyUsagesLoop_unknown (l₁ : List String) (k : String)
    (l₂ : List String) (acc : List Nat)
    (hk : stringToKeyUsage.lookup k = none)
    (h : ∀ x ∈ l₁, ∃ u, stringToKeyUsage.lookup x = some u ∧
      u ≠ ExtKeyUsageAny) :
    extKeyUsagesLoop (l₁ ++ k :: l₂) acc = .error (.unknownEKU k) := by
  induction l₁ generalizing acc with
  | nil => simp [extKeyUsagesLoop, hk]
  | cons x xs ih =>
    obtain ⟨u, hu, hne⟩ := h x (by simp)
    simp only [List.cons_append, extKeyUsagesLoop, hu, if_neg hne]
    exact ih (acc ++ [u]) (fun y hy => h y (by simp [hy]))

/-- Scanning a list whose prefix consists of known, non-"Any" usages and
then hits "Any" succeeds with the empty usage list. -/
theorem extKeyUsagesLoop_any (l₁ l₂ : List String) (acc : List Nat)
    (h : ∀ x ∈ l₁, ∃ u, stringToKeyUsage.lookup x = some u ∧
      u ≠ ExtKeyUsageAny) :
    extKeyUsagesLoop (l₁ ++ "Any" :: l₂) acc = .ok [] := by
  induction l₁ generalizing acc with
  | nil => rfl
  | cons x xs ih =>
    obtain ⟨u, hu, hne⟩ := h x (by simp)
    simp only [List.cons_append, extKeyUsagesLoop, hu, if_neg hne]
    exact ih (acc ++ [u]) (fun y hy => h y (by simp [hy]))

/-- A left fold appending singletons is the map. -/
theorem foldl_append_singleton {α β : Type} (f : α → β) (l : List α) :
    ∀ acc : List β, l.foldl (fun a c => a ++ [f c]) acc = acc ++ l.map f := by
  induction l with
  | nil => simp
  | cons x xs ih => intro acc; simp [ih]

/-- Every character emitted by `hexEncodeByte` is a lowercase hex digit. -/
theorem hexEncodeByte_mem_alphabet (b : Nat) :
    ∀ ch ∈ hexEncodeByte b, ch ∈ hexAlphabet := by
  have h16 : ∀ n, n < 16 → hexDigit n ∈ hexAlphabet := by decide
  intro ch hch
  simp only [hexEncodeByte, List.mem_cons, List.not_mem_nil, or_false] at hch
  rcases hch with rfl | rfl
  · exact h16 _ (by omega)
  · exact h16 _ (by omega)

/-- Every character of a hex-encoded string is a lowercase hex digit. -/
theorem hexEncodeToString_lowercase (bs : List Nat) :
    ∀ ch ∈ (hexEncodeToString bs).toList, ch ∈ hexAlphabet := by
  intro ch hch
  simp only [hexEncodeToString] at hch
  change ch ∈ (bs.map hexEncodeByte).flatten at hch
  rw [List.mem_flatten] at hch
  obtain ⟨l, hl, hchl⟩ := hch
  rw [List.mem_map] at hl
  obtain ⟨b, _, rfl⟩ := hl
  exact hexEncodeByte_mem_alphabet b ch hchl

/-- `cacheInsert` grows the cache by at most one key. -/
theorem cacheInsert_length (m : List String) (k : String) :
    (cacheInsert m k).length ≤ m.length + 1 := by
  unfold cacheInsert
  split
  · omega
  · simp

/-- The caching loop preserves the `maxCachedIssuerKeys` bound. -/
theorem cacheInsertLoop_length_le (l : List KV) :
    ∀ m : List String, m.length ≤ maxCachedIssuerKeys →
      (cacheInsertLoop m l).length ≤ maxCachedIssuerKeys := by
  induction l with
  | nil => intro m hm; exact hm
  | cons kv rest ih =>
    intro m hm
    unfold cacheInsertLoop
    split
    · exact hm
    · rename_i hfull
      have : (cacheInsert m kv.k).length ≤ maxCachedIssuerKeys := by
        have := cacheInsert_length m kv.k
        omega
      exact ih _ this

/-- Keys present after the caching loop were already cached or belong to
the inserted batch. -/
theorem cacheInsertLoop_mem (l : List KV) :
    ∀ (m : List String) (k : String), k ∈ cacheInsertLoop m l →
      k ∈ m ∨ k ∈ l.map KV.k := by
  induction l with
  | nil => intro m k hk; exact Or.inl hk
  | cons kv rest ih =>
    intro m k hk
    unfold cacheInsertLoop at hk
    split at hk
    · exact Or.inl hk
    · rcases ih _ k hk with h | h
      · unfold cacheInsert at h
        split at h
        · exact Or.inl h
        · rcases List.mem_append.1 h with h1 | h1
          · exact Or.inl h1
          · simp at h1
            right
            simp [h1]
      · right
        simp [h]

/-- A full cache is left untouched by the caching loop. -/
theorem cacheInsertLoop_full (l : List KV) (m : List String)
    (hm : m.length ≥ maxCachedIssuerKeys) : cacheInsertLoop m l = m := by
  cases l with
  | nil => rfl
  | cons kv rest => unfold cacheInsertLoop; rw [if_pos hm]

/-! ## Claims -/

/-- C3, counterexample: the claim says every signer whose public key is
not a NIST P-256 ECDSA key — including ECDSA keys on other curves such as
P-384 — is rejected by `New`. The type switch in `New` only checks for
`*ecdsa.PublicKey` and never inspects the curve, so a P-384 ECDSA signer
is accepted with a fully validated config. -/
theorem c3_p384_signer_accepted :
    PublicKey.ecdsa "P-384" ≠ PublicKey.ecdsa "P-256"
    ∧ New envOkRoots "example.com/log" (some (PublicKey.ecdsa "P-384")) cfgBasic =
        .ok { origin := "example.com/log",
              signerPub := PublicKey.ecdsa "P-384",
              certValidationOpts :=
                { trustedRoots := ["fake-ca"], rejectExpired := false,
                  rejectUnexpired := false, notAfterStart := none,
                  notAfterLimit := none, extKeyUsages := [],
                  rejectExtIds := [] } } :=
  ⟨by decide, by rfl⟩

/-- C3, amended: `New` rejects every signer whose public key is not an
ECDSA key (e.g. RSA or Ed25519), and accepts any ECDSA signer — on any
curve, P-256 included — whenever the rest of the configuration validates. -/
theorem c3_signer_key_type (env : ConfigEnv) (o : String)
    (signer : Option PublicKey) (cfg : CertValidationConfig) :
    (∀ pub, signer = some pub → (∀ c, pub ≠ PublicKey.ecdsa c) →
      exceptIsOk (New env o signer cfg) = false)
    ∧ (∀ c opts, signer = some (PublicKey.ecdsa c) → o ≠ "" →
      newCertValidationOpts env cfg = .ok opts →
      New env o signer cfg =
        .ok { origin := o, signerPub := PublicKey.ecdsa c,
              certValidationOpts := opts }) := by
  constructor
  · intro pub hs hne
    unfold New
    split
    · rfl
    · simp only [hs]
      cases pub with
      | ecdsa c => exact absurd rfl (hne c)
      | rsa bits => rfl
      | ed25519 => rfl
  · intro c opts hs ho hv
    unfold New
    rw [if_neg ho]
    simp only [hs, hv]

/-- C3, witness for the amended theorem: an RSA signer is rejected, a
P-256 ECDSA signer is accepted. -/
theorem c3_signer_key_type_witness :
    exceptIsOk (New envOkRoots "example.com/log"
      (some (PublicKey.rsa 2048)) cfgBasic) = false
    ∧ New envOkRoots "example.com/log"
        (some (PublicKey.ecdsa "P-256")) cfgBasic =
      .ok { origin := "example.com/log",
            signerPub := PublicKey.ecdsa "P-256",
            certValidationOpts :=
              { trustedRoots := ["fake-ca"], rejectExpired := false,
                rejectUnexpired := false, notAfterStart := none,
                notAfterLimit := none, extKeyUsages := [],
                rejectExtIds := [] } } :=
  ⟨(c3_signer_key_type envOkRoots "example.com/log"
      (some (PublicKey.rsa 2048)) cfgBasic).1 (PublicKey.rsa 2048) rfl
      (fun c hc => PublicKey.noConfusion hc),
   (c3_signer_key_type envOkRoots "example.com/log"
      (some (PublicKey.ecdsa "P-256")) cfgBasic).2 "P-256" _ rfl
      (by decide) rfl⟩

/-- C4: a configuration with both `RejectExpired` and `RejectUnexpired`
set, or with both NotAfter bounds set and the limit before the start, is
rejected by `newCertValidationOpts` — and hence by `New` — with an error
and no options value. -/
theorem c4_contradictory_config_rejected (env : ConfigEnv)
    (cfg : CertValidationConfig) (o : String) (s : Option PublicKey) :
    (cfg.rejectExpired = true → cfg.rejectUnexpired = true →
      exceptIsOk (newCertValidationOpts env cfg) = false
      ∧ exceptIsOk (New env o s cfg) = false)
    ∧ (∀ nas nal, cfg.notAfterStart = some nas →
      cfg.notAfterLimit = some nal → nal < nas →
      exceptIsOk (newCertValidationOpts env cfg) = false
      ∧ exceptIsOk (New env o s cfg) = false) := by
  have wrap := New_isOk_le env o s cfg
  constructor
  · intro h1 h2
    have hin : exceptIsOk (newCertValidationOpts env cfg) = false := by
      unfold newCertValidationOpts
      split
      · rfl
      · split
        · rfl
        · rw [h1, h2]
          rfl
    exact ⟨hin, wrap hin⟩
  · intro nas nal hs hl hlt
    have hin : exceptIsOk (newCertValidationOpts env cfg) = false := by
      unfold newCertValidationOpts
      split
      · rfl
      · split
        · rfl
        · by_cases hb : (cfg.rejectExpired && cfg.rejectUnexpired) = true
          · rw [if_pos hb]
            rfl
          · rw [if_neg hb]
            simp only [hs, hl]
            rw [if_pos hlt]
            rfl
    exact ⟨hin, wrap hin⟩

/-- C4, witness: both contradictory configurations are rejected at a
concrete input. -/
theorem c4_contradictory_config_rejected_witness :
    (exceptIsOk (newCertValidationOpts envOkRoots
        { cfgBasic with rejectExpired := true, rejectUnexpired := true }) = false
     ∧ exceptIsOk (New envOkRoots "example.com/log" none
        { cfgBasic with rejectExpired := true, rejectUnexpired := true }) = false)
    ∧ (exceptIsOk (newCertValidationOpts envOkRoots
        { cfgBasic with notAfterStart := some 200, notAfterLimit := some 100 }) = false
     ∧ exceptIsOk (New envOkRoots "example.com/log" none
        { cfgBasic with notAfterStart := some 200, notAfterLimit := some 100 }) = false) :=
  ⟨(c4_contradictory_config_rejected envOkRoots
      { cfgBasic with rejectExpired := true, rejectUnexpired := true }
      "example.com/log" none).1 rfl rfl,
   (c4_contradictory_config_rejected envOkRoots
      { cfgBasic with notAfterStart := some 200, notAfterLimit := some 100 }
      "example.com/log" none).2 200 100 rfl rfl (by decide)⟩

/-- C5, counterexample: the claim says config construction fails whenever
the comma-split `ExtKeyUsages` list contains an unknown name. But the EKU
loop breaks as soon as it meets "Any": for `ExtKeyUsages =
"Any,TimeStomping"` the unknown name "TimeStomping" is in the list yet
`newCertValidationOpts` succeeds (with EKU checking disabled). -/
theorem c5_any_shields_unknown_counterexample :
    cfgAnyUnknown.extKeyUsages = "Any,TimeStomping"
    ∧ goSplit "Any,TimeStomping" ',' = ["Any", "TimeStomping"]
    ∧ stringToKeyUsage.lookup "TimeStomping" = none
    ∧ newCertValidationOpts envOkRoots cfgAnyUnknown =
        .ok { trustedRoots := ["fake-ca"], rejectExpired := false,
              rejectUnexpired := false, notAfterStart := none,
              notAfterLimit := none, extKeyUsages := [],
              rejectExtIds := [] } :=
  ⟨rfl, rfl, rfl, rfl⟩

/-- C5, amended: provided the earlier checks pass, scanning the
comma-split `ExtKeyUsages` list left to right: if an unknown name is
reached before any "Any" entry, construction fails with an error whose
message contains "unknown extended key usage"; if an "Any" entry is
reached before any unknown name, construction (with a parsable
`RejectExtensions` list) succeeds and the validation options carry an
empty EKU allowlist, i.e. EKU checking is disabled. -/
theorem c5_eku_list_processing (env : ConfigEnv)
    (cfg : CertValidationConfig) (roots : List String)
    (hlen : cfg.rootsPemFile.length ≠ 0)
    (hroots : env.appendCertsFromPEMFile cfg.rootsPemFile = some roots)
    (hrej : (cfg.rejectExpired && cfg.rejectUnexpired) = false)
    (hwin : ∀ nas nal, cfg.notAfterStart = some nas →
      cfg.notAfterLimit = some nal → ¬ nal < nas) :
    (∀ l₁ k l₂,
      (if cfg.extKeyUsages = "" then []
       else goSplit cfg.extKeyUsages ',') = l₁ ++ k :: l₂ →
      stringToKeyUsage.lookup k = none →
      (∀ x ∈ l₁, ∃ u, stringToKeyUsage.lookup x = some u ∧
        u ≠ ExtKeyUsageAny) →
      newCertValidationOpts env cfg = .error (.unknownEKU k)
      ∧ ∃ suffix, configErrMsg (ConfigErr.unknownEKU k) =
          "unknown extended key usage" ++ suffix)
    ∧ (∀ l₁ l₂,
      (if cfg.extKeyUsages = "" then []
       else goSplit cfg.extKeyUsages ',') = l₁ ++ "Any" :: l₂ →
      (∀ x ∈ l₁, ∃ u, stringToKeyUsage.lookup x = some u ∧
        u ≠ ExtKeyUsageAny) →
      ∀ oids, parseOIDs (if cfg.rejectExtensions = "" then []
        else goSplit cfg.rejectExtensions ',') = some oids →
      ∃ opts, newCertValidationOpts env cfg = .ok opts
        ∧ opts.extKeyUsages = []) := by
  rw [newCertValidationOpts_eq_tail env cfg roots hlen hroots hrej hwin]
  constructor
  · intro l₁ k l₂ hsplit hk hknown
    refine ⟨?_, ⟨": " ++ k, by rfl⟩⟩
    unfold newCertValidationOptsTail
    rw [hsplit]
    simp only [extKeyUsagesLoop_unknown l₁ k l₂ [] hk hknown]
  · intro l₁ l₂ hsplit hknown oids hoids
    refine ⟨{ trustedRoots := roots, rejectExpired := cfg.rejectExpired,
              rejectUnexpired := cfg.rejectUnexpired,
              notAfterStart := cfg.notAfterStart,
              notAfterLimit := cfg.notAfterLimit, extKeyUsages := [],
              rejectExtIds := oids }, ?_, rfl⟩
    unfold newCertValidationOptsTail
    rw [hsplit]
    simp only [extKeyUsagesLoop_any l₁ l₂ [] hknown, hoids]

/-- C5, witness for the amended theorem: "ClientAuth,TimeStomping" fails
with the unknown-EKU error (as in the spec's unknown-eku-config scenario);
"ServerAuth,Any" succeeds with an empty EKU allowlist. -/
theorem c5_eku_list_processing_witness :
    (newCertValidationOpts envOkRoots
        { cfgBasic with extKeyUsages := "ClientAuth,TimeStomping" } =
      .error (.unknownEKU "TimeStomping")
     ∧ ∃ suffix, configErrMsg (ConfigErr.unknownEKU "TimeStomping") =
        "unknown extended key usage" ++ suffix)
    ∧ ∃ opts, newCertValidationOpts envOkRoots
        { cfgBasic with extKeyUsages := "ServerAuth,Any" } = .ok opts
      ∧ opts.extKeyUsages = [] :=
  ⟨(c5_eku_list_processing envOkRoots
      { cfgBasic with extKeyUsages := "ClientAuth,TimeStomping" }
      ["fake-ca"] (by decide) rfl rfl
      (fun nas nal h _ => by cases h)).1
      ["ClientAuth"] "TimeStomping" [] rfl rfl
      (fun x hx => by
        simp only [List.mem_singleton] at hx
        subst hx
        exact ⟨2, rfl, by decide⟩),
   (c5_eku_list_processing envOkRoots
      { cfgBasic with extKeyUsages := "ServerAuth,Any" }
      ["fake-ca"] (by decide) rfl rfl
      (fun nas nal h _ => by cases h)).2
      ["ServerAuth"] [] rfl
      (fun x hx => by
        simp only [List.mem_singleton] at hx
        subst hx
        exact ⟨1, rfl, by decide⟩)
      [] rfl⟩

/-- C1: when the index future resolves with `IsDup = true` and the
recovery pipeline succeeds, `CTStorage.Add` returns the future's index
`i` together with the timestamp extracted from the integrated entry
bundle number `i / 256` at position `i % 256` — the originally committed
timestamp. The returned timestamp is the extracted `t`, for every value
of `entry.timestamp`, so the duplicate submission's own timestamp is
never returned. -/
theorem c1_dup_returns_recovered_timestamp
    (env : StorageEnv) (cts : CTStorage) (inFlight : Nat) (entry : Entry)
    (i : Nat) (cp szLine : String) (sz : Nat) (eb : List Nat) (t : Nat)
    (hf : env.storeData entry = .ok ⟨i, true⟩)
    (hgate : inFlight ≤ cts.maxDedupeFutureInFlight)
    (hcp : env.awaitCheckpoint i = some cp)
    (hline : (splitN3 cp)[1]? = some szLine)
    (hsz : parseUint64 szLine = some sz)
    (heb : env.readEntryBundle (i / EntryBundleWidth)
      (env.tileWidth 0 (i / EntryBundleWidth) sz) = .ok eb)
    (ht : env.extractTimestamp eb (i % EntryBundleWidth) = some t) :
    (ctAdd env cts inFlight entry).result = .ok (i, t)
    ∧ EntryBundleWidth = 256 := by
  refine ⟨?_, rfl⟩
  simp only [ctAdd, dedupeFuture, awaiterAwait, hf, hcp, hline, hsz, heb, ht,
    if_neg (Nat.not_lt.mpr hgate), if_true]

/-- C1, witness: a concrete duplicate of index 300 recovers the bundle
timestamp 1111 from bundle 1, position 44, whatever the submission's own
timestamp (here 99999) was. -/
theorem c1_dup_returns_recovered_timestamp_witness :
    (ctAdd envDup ⟨true, 100⟩ 0 ⟨99999, [1, 2]⟩).result = .ok (300, 1111)
    ∧ EntryBundleWidth = 256 :=
  c1_dup_returns_recovered_timestamp envDup ⟨true, 100⟩ 0 ⟨99999, [1, 2]⟩
    300 "example.com/log\n301\nc29tZWhhc2g=\n" "301" 301
    [0, 0, 0, 0, 0, 0, 4, 87] 1111
    rfl (by decide) rfl rfl rfl rfl rfl

/-- C6: when the index future resolves with `IsDup = false`,
`CTStorage.Add` returns the assigned index together with exactly the
caller-supplied `entry.timestamp`; with the awaiter enabled it first
blocks on the publication awaiter (ghost flag `tookAddAwaiterBranch`),
and a duplicate never takes that branch of `Add`. -/
theorem c6_nondup_returns_entry_timestamp
    (env : StorageEnv) (cts : CTStorage) (inFlight : Nat) (entry : Entry)
    (i : Nat) :
    (env.storeData entry = .ok ⟨i, false⟩ →
      (cts.enableAwaiter = false →
        ctAdd env cts inFlight entry =
          ⟨.ok (i, entry.timestamp), inFlight, false⟩)
      ∧ (∀ cp, cts.enableAwaiter = true → env.awaitCheckpoint i = some cp →
        ctAdd env cts inFlight entry =
          ⟨.ok (i, entry.timestamp), inFlight, true⟩))
    ∧ (env.storeData entry = .ok ⟨i, true⟩ →
      (ctAdd env cts inFlight entry).tookAddAwaiterBranch = false) := by
  constructor
  · intro hf
    constructor
    · intro hA
      simp only [ctAdd, hf, hA]
      rfl
    · intro cp hA hcp
      simp only [ctAdd, awaiterAwait, hf, hA, hcp]
      rfl
  · intro hf
    simp only [ctAdd, hf]
    rfl

/-- C6, witness: a fresh entry assigned index 7 with the awaiter enabled
returns (7, caller timestamp 555) having taken the awaiter branch; a
duplicate (index 300) does not take that branch. -/
theorem c6_nondup_returns_entry_timestamp_witness :
    ctAdd envNondup ⟨true, 100⟩ 3 ⟨555, []⟩ = ⟨.ok (7, 555), 3, true⟩
    ∧ (ctAdd envDup ⟨true, 100⟩ 0 ⟨99999, [1, 2]⟩).tookAddAwaiterBranch
        = false :=
  ⟨((c6_nondup_returns_entry_timestamp envNondup ⟨true, 100⟩ 3
        ⟨555, []⟩ 7).1 rfl).2
      "example.com/log\n8\nc29tZWhhc2g=\n" rfl rfl,
   (c6_nondup_returns_entry_timestamp envDup ⟨true, 100⟩ 0
        ⟨99999, [1, 2]⟩ 300).2 rfl⟩

/-- C7: the claim (and the flag documentation of
`pushback_max_dedupe_in_flight`) says that with the limit configured as 0
duplicate recoveries are always pushed back, and that at most `limit`
recoveries are admitted. The gate in `dedupeFuture` tests
`inFlight > max`, not `≥`: with `max = 0` and the counter freshly reset
to 0 by `resetDedupeFutureInFlightTick`, the first recovery of the window
is admitted and completes (returning the recovered pair instead of the
PUSHBACK error); only the next call is pushed back. -/
theorem c7_zero_limit_admits_first_recovery :
    resetDedupeFutureInFlightTick 37 = 0
    ∧ dedupeFuture envDup ⟨false, 0⟩ (resetDedupeFutureInFlightTick 37)
        (.ok ⟨0, true⟩) = (.ok (0, 1111), 1)
    ∧ dedupeFuture envDup ⟨false, 0⟩ 1 (.ok ⟨0, true⟩)
        = (.error .pushback, 1) :=
  ⟨rfl, rfl, rfl⟩

/-- C2: the claim says a record whose key already exists must not prevent
the remaining records of the same call from being written. The AWS
implementation returns `nil` (instead of continuing, as its own log
message announces) on the first `PreconditionFailed`: with "k1" already
stored, the batch [k1, k2] ends successfully with "k2" never written. The
in-memory implementation, by contrast, continues and writes "k2". -/
theorem c2_aws_duplicate_halts_batch :
    awsAddIssuersIfNotExist "" [("k1", [1])] [⟨"k1", [9]⟩, ⟨"k2", [2]⟩]
        = [("k1", [1])]
    ∧ ([("k1", [1])] : List (String × List Nat)).lookup "k2" = none
    ∧ inmemoryAddIssuersIfNotExist [("k1", [1])] [⟨"k1", [9]⟩, ⟨"k2", [2]⟩]
        = [("k1", [1]), ("k2", [2])] :=
  ⟨rfl, rfl, rfl⟩

/-- C8: the issuer caching wrapper holds at most `maxCachedIssuerKeys`
(2^20) keys: the bound is preserved by every call, and once the cache is
full nothing more is cached; yet every call still hands the underlying
`IssuerStorage` exactly the keys not found in the cache — the backend
invocation and its verdict do not depend on the cache being full. -/
theorem c8_issuer_cache_bound_and_forwarding
    (backend : List KV → Except String Unit) (m : List String)
    (kv : List KV) :
    (m.length ≤ maxCachedIssuerKeys →
      (cachedStoreIssuersCall backend m kv).2.length ≤ maxCachedIssuerKeys)
    ∧ (m.length ≥ maxCachedIssuerKeys →
      (cachedStoreIssuersCall backend m kv).2 = m)
    ∧ (cachedStoreIssuersCall backend m kv).1 =
        (match backend (kv.filter fun x => !(cacheContains m x.k)) with
         | .error e => .error ("AddIssuersIfNotExist()s: error storing issuer data in the underlying IssuerStorage: " ++ e)
         | .ok _ => .ok ()) := by
  refine ⟨?_, ?_, ?_⟩
  · intro hm
    cases hb : backend (kv.filter fun x => !(cacheContains m x.k)) with
    | error e =>
      simp only [cachedStoreIssuersCall, hb]
      exact hm
    | ok u =>
      simp only [cachedStoreIssuersCall, hb]
      exact cacheInsertLoop_length_le _ m hm
  · intro hm
    cases hb : backend (kv.filter fun x => !(cacheContains m x.k)) with
    | error e => simp only [cachedStoreIssuersCall, hb]
    | ok u =>
      simp only [cachedStoreIssuersCall, hb]
      exact cacheInsertLoop_full _ m hm
  · cases hb : backend (kv.filter fun x => !(cacheContains m x.k)) with
    | error e => simp only [cachedStoreIssuersCall, hb]
    | ok u => simp only [cachedStoreIssuersCall, hb]

/-- C8, witness: the bound, the full-cache behaviour and the forwarding
equation at concrete inputs (the full cache is `2^20` copies of "x"). -/
theorem c8_issuer_cache_bound_and_forwarding_witness :
    (cachedStoreIssuersCall backendOk ["a"]
        [⟨"a", [1]⟩, ⟨"b", [2]⟩]).2.length ≤ maxCachedIssuerKeys
    ∧ (cachedStoreIssuersCall backendOk fullCache
        [⟨"b", [2]⟩]).2 = fullCache
    ∧ (cachedStoreIssuersCall backendOk ["a"] [⟨"a", [1]⟩, ⟨"b", [2]⟩]).1 =
        (match backendOk ([⟨"a", [1]⟩, ⟨"b", [2]⟩].filter
            fun x => !(cacheContains ["a"] x.k)) with
         | .error e => .error ("AddIssuersIfNotExist()s: error storing issuer data in the underlying IssuerStorage: " ++ e)
         | .ok _ => .ok ()) :=
  ⟨(c8_issuer_cache_bound_and_forwarding backendOk ["a"]
      [⟨"a", [1]⟩, ⟨"b", [2]⟩]).1 (by simp [maxCachedIssuerKeys]),
   (c8_issuer_cache_bound_and_forwarding backendOk fullCache
      [⟨"b", [2]⟩]).2.1 (by simp [fullCache]),
   (c8_issuer_cache_bound_and_forwarding backendOk ["a"]
      [⟨"a", [1]⟩, ⟨"b", [2]⟩]).2.2⟩

/-- C10: a key enters the in-process cache only through a call whose
backend invocation succeeded and whose forwarded batch contained the key:
if the backend returns an error the cache is unchanged (so the key is
forwarded again on retry), and every cached key was either cached before
or belongs to the successfully written batch. -/
theorem c10_cache_only_after_success
    (backend : List KV → Except String Unit) (m : List String)
    (kv : List KV) :
    (∀ e, (cachedStoreIssuersCall backend m kv).1 = .error e →
      (cachedStoreIssuersCall backend m kv).2 = m)
    ∧ (∀ k, k ∈ (cachedStoreIssuersCall backend m kv).2 →
      k ∈ m ∨
      (exceptIsOk (backend (kv.filter fun x => !(cacheContains m x.k)))
          = true
        ∧ k ∈ (kv.filter fun x => !(cacheContains m x.k)).map KV.k)) := by
  constructor
  · intro e he
    cases hb : backend (kv.filter fun x => !(cacheContains m x.k)) with
    | error e2 => simp only [cachedStoreIssuersCall, hb]
    | ok u =>
      simp only [cachedStoreIssuersCall, hb] at he
      exact Except.noConfusion he
  · intro k hk
    cases hb : backend (kv.filter fun x => !(cacheContains m x.k)) with
    | error e =>
      simp only [cachedStoreIssuersCall, hb] at hk
      exact Or.inl hk
    | ok u =>
      simp only [cachedStoreIssuersCall, hb] at hk
      rcases cacheInsertLoop_mem _ m k hk with h | h
      · exact Or.inl h
      · exact Or.inr ⟨rfl, h⟩

/-- C10, witness: a failing backend leaves the cache empty (so the key is
retried later), and a key cached by a successful call belongs to the
forwarded batch. -/
theorem c10_cache_only_after_success_witness :
    (cachedStoreIssuersCall backendBoom [] [⟨"a", [1]⟩]).2 = []
    ∧ ("a" ∈ ([] : List String) ∨
      (exceptIsOk (backendOk ([⟨"a", [1]⟩].filter
          fun x => !(cacheContains [] x.k))) = true
        ∧ "a" ∈ ([⟨"a", [1]⟩].filter
          fun x => !(cacheContains [] x.k)).map KV.k)) :=
  ⟨(c10_cache_only_after_success backendBoom [] [⟨"a", [1]⟩]).1
      "AddIssuersIfNotExist()s: error storing issuer data in the underlying IssuerStorage: boom"
      rfl,
   (c10_cache_only_after_success backendOk [] [⟨"a", [1]⟩]).2
      "a" (by decide)⟩

/-- C9: the batch `CTStorage.AddIssuerChain` hands to the issuer store
contains exactly one record per chain certificate, in chain order: the
key is the lowercase hex encoding of the SHA-256 of the certificate's
DER bytes and the value is those DER bytes; every key character is a
lowercase hex digit. -/
theorem c9_issuer_chain_batch (sha : List Nat → List Nat)
    (store : List KV → Except String Unit) (chain : List Certificate) :
    AddIssuerChain sha store chain =
      (match store (chain.map
          fun c => KV.mk (hexEncodeToString (sha c.raw)) c.raw) with
       | .error e => .error ("error storing intermediates: " ++ e)
       | .ok _ => .ok ())
    ∧ (chain.map fun c => KV.mk (hexEncodeToString (sha c.raw))
        c.raw).length = chain.length
    ∧ ((chain.map fun c => KV.mk (hexEncodeToString (sha c.raw)) c.raw).all
        fun kv => kv.k.toList.all fun ch => hexAlphabet.contains ch)
      = true := by
  refine ⟨?_, by simp, ?_⟩
  · unfold AddIssuerChain
    rw [foldl_append_singleton]
    simp
  · rw [List.all_eq_true]
    intro kv hkv
    rw [List.mem_map] at hkv
    obtain ⟨c, _, rfl⟩ := hkv
    rw [List.all_eq_true]
    intro ch hch
    have := hexEncodeToString_lowercase (sha c.raw) ch hch
    exact List.elem_eq_true_of_mem this
